import Mathlib

/-!
Verification of the PresentAI backend core: the credential refresh gate
(`GoogleAuthService.get_valid_credentials_from_doc` in
`backend/services/google_auth.py`) and the chunked upload reassembler
(`upload_chunk` in `backend/routes/sessions.py`), shallowly embedded as
pure Lean functions.  External collaborators (the token provider and the
blob store) are passed in as function parameters; observable side effects
(database writes, provider call counts, the buffer handed to storage) are
returned explicitly.
-/

namespace PresentAI

/-! ### Credential refresh gate (google_auth.py) -/

/-- Result of a successful `refresh_access_token` call: the new access
token and its expiry, as returned by the token provider. -/
structure TokenResult where
  access_token : String
  token_expiry : Nat
deriving Repr, DecidableEq

/-- A persisted user document, as read from `db.users`: the fields
`get_valid_credentials_from_doc` touches.  Timestamps are naturals. -/
structure UserDoc where
  id : Nat
  access_token : Option String
  refresh_token : Option String
  token_expiry : Option Nat
deriving Repr, DecidableEq

/-- The `google.oauth2.credentials.Credentials` object the gate returns,
restricted to the token fields it is built from. -/
structure Credentials where
  token : Option String
  refresh_token : Option String
deriving Repr, DecidableEq

/-- One `db.users.update_one` write issued by the gate: the `_id` key it
filters on and the `$set` fields. -/
structure DbWrite where
  key : Nat
  access_token : String
  token_expiry : Nat
deriving Repr, DecidableEq

/-- Everything observable about one call to
`get_valid_credentials_from_doc`: the returned value (`none` models the
Python `return None`), the database writes it issued, how many times it
invoked `refresh_access_token`, and the in-memory `user_doc` after the
call. -/
structure AuthOutcome where
  result : Option Credentials
  dbWrites : List DbWrite
  refreshCalls : Nat
  finalDoc : UserDoc
deriving Repr, DecidableEq

/-- Shallow embedding of `GoogleAuthService.get_valid_credentials_from_doc`
(google_auth.py lines 98-128).  `refresh` models the token provider:
`refresh rt = none` models `refresh_access_token` raising, `some tr` a
successful refresh.  The Python staleness test
`if token_expiry and token_expiry <= datetime.utcnow()` becomes a match on
the optional expiry followed by `exp ≤ now`. -/
def get_valid_credentials_from_doc (now : Nat) (user_doc : UserDoc)
    (refresh : String → Option TokenResult) : AuthOutcome :=
  match user_doc.token_expiry with
  | some exp =>
    if exp ≤ now then
      match user_doc.refresh_token with
      | some rt =>
        match refresh rt with
        | some new_tokens =>
          let doc' : UserDoc := { user_doc with access_token := some new_tokens.access_token }
          { result := some ⟨doc'.access_token, doc'.refresh_token⟩
            dbWrites := [⟨user_doc.id, new_tokens.access_token, new_tokens.token_expiry⟩]
            refreshCalls := 1
            finalDoc := doc' }
        | none =>
          { result := none, dbWrites := [], refreshCalls := 1, finalDoc := user_doc }
      | none =>
        { result := some ⟨user_doc.access_token, user_doc.refresh_token⟩
          dbWrites := [], refreshCalls := 0, finalDoc := user_doc }
    else
      { result := some ⟨user_doc.access_token, user_doc.refresh_token⟩
        dbWrites := [], refreshCalls := 0, finalDoc := user_doc }
  | none =>
    { result := some ⟨user_doc.access_token, user_doc.refresh_token⟩
      dbWrites := [], refreshCalls := 0, finalDoc := user_doc }

/-! ### Chunked upload reassembler (routes/sessions.py) -/

/-- One entry of the module-level `_chunk_storage` dict: the per-upload
chunk dict (modelled as an association list where the most recent write
for an index is at the front), the declared total, and the owner context.
Chunk indices are Python ints, hence `Int`; payloads are byte lists. -/
structure UploadSession where
  chunks : List (Int × List Nat)
  total : Int
  session_id : String
  user_id : String
deriving Repr, DecidableEq

/-- Dict read `chunks[i]` / membership test `i in chunks`: the most
recent write for index `i`, if any. -/
def getChunk : List (Int × List Nat) → Int → Option (List Nat)
  | [], _ => none
  | c :: cs, i => if c.fst = i then some c.snd else getChunk cs i

/-- The process-wide `_chunk_storage` table, keyed by `uploadId`. -/
abbrev ChunkStorage := List (String × UploadSession)

/-- Dict read `_chunk_storage[upload_id]` / membership test. -/
def lookupUpload : ChunkStorage → String → Option UploadSession
  | [], _ => none
  | e :: es, u => if e.fst = u then some e.snd else lookupUpload es u

/-- `_chunk_storage[upload_id]['chunks'][chunk_index] = data`: update the
session stored under `u` with a new chunk write. -/
def storeChunk (st : ChunkStorage) (u : String) (i : Int) (p : List Nat) : ChunkStorage :=
  st.map (fun e => if e.fst = u then (e.fst, { e.snd with chunks := (i, p) :: e.snd.chunks }) else e)

/-- `del _chunk_storage[upload_id]`. -/
def removeUpload (st : ChunkStorage) (u : String) : ChunkStorage :=
  st.filter (fun e => decide (e.fst ≠ u))

/-- The fragment-relevant content of one request to `upload_chunk`:
`chunkIndex`/`totalChunks` are `none` when the form field is missing
(Python then uses the defaults 0 and 1). -/
structure ChunkRequest where
  uploadId : String
  chunkIndex : Option Int
  totalChunks : Option Int
  isLastChunk : Bool
  payload : List Nat
  session_id : String
  user_id : String
deriving Repr, DecidableEq

/-- Outcome of handing the combined buffer to the storage uploader:
a successful result, a result dict containing `error`, or a raised
exception (either also covers the temp-file handling in the `try`). -/
inductive BlobResult where
  | ok (url : String) (size : Nat)
  | err (msg : String)
  | exn (msg : String)
deriving Repr, DecidableEq

/-- The JSON response of `upload_chunk`, restricted to what the claims
observe: a non-terminal success (`complete: false` with `chunkReceived`),
a terminal success, or a 500 error. -/
inductive UploadResponse where
  | interim (chunkReceived : Int)
  | completed (url : String) (size : Nat)
  | serverError (msg : String)
deriving Repr, DecidableEq

/-- The response `upload_chunk` produces from the uploader's outcome on
the terminal request: lines 519-528 on success, lines 494-495 for a result
carrying `error`, lines 530-534 for a raised exception (the latter two are
both 500 responses). -/
def respOf : BlobResult → UploadResponse
  | .ok url size => .completed url size
  | .err m => .serverError m
  | .exn m => .serverError m

/-- Observable effect of one `upload_chunk` request: the table afterwards,
the response, and the buffer handed to the storage uploader (when the
finalize path ran). -/
structure StepResult where
  storage : ChunkStorage
  response : UploadResponse
  handedToStore : Option (List Nat)
deriving Repr, DecidableEq

/-- `combined_data`: iterate `i in range(storage['total'])`, appending
`chunks[i]` when present (sessions.py lines 462-466).  A negative total
gives an empty range, as in Python. -/
def combineChunks (s : UploadSession) : List Nat :=
  (List.range s.total.toNat).foldl
    (fun acc (i : Nat) => acc ++ ((getChunk s.chunks (i : Int)).getD [])) []

/-- Shallow embedding of `upload_chunk` (sessions.py lines 438-540), from
the point where the form fields are read.  `blob` models the storage
uploader (Vercel Blob or Cloudinary).  `base` is the session the dict read
`_chunk_storage[upload_id]` yields after the initialize-if-absent step;
`sess` is that session after the chunk write.  The entry is deleted on
every terminal path: success, `error` in the result, or an exception. -/
def upload_chunk (blob : List Nat → BlobResult) (st : ChunkStorage)
    (req : ChunkRequest) : StepResult :=
  let chunk_index : Int := req.chunkIndex.getD 0
  let total_chunks : Int := req.totalChunks.getD 1
  let upload_id := req.uploadId
  let base : UploadSession :=
    match lookupUpload st upload_id with
    | some s => s
    | none => ⟨[], total_chunks, req.session_id, req.user_id⟩
  let st1 : ChunkStorage :=
    match lookupUpload st upload_id with
    | some _ => st
    | none => (upload_id, base) :: st
  let sess : UploadSession := { base with chunks := (chunk_index, req.payload) :: base.chunks }
  let st2 := storeChunk st1 upload_id chunk_index req.payload
  if req.isLastChunk then
    let combined := combineChunks sess
    ⟨removeUpload st2 upload_id, respOf (blob combined), some combined⟩
  else
    ⟨st2, .interim chunk_index, none⟩

/-- Process a list of requests in order, threading the chunk table. -/
def processAll (blob : List Nat → BlobResult) (st : ChunkStorage)
    (reqs : List ChunkRequest) : ChunkStorage :=
  reqs.foldl (fun s r => (upload_chunk blob s r).storage) st

/-- The request a client submits for fragment `i` of a run where every
fragment declares total `N` and index `i` carries payload `f i`. -/
def mkReq (u sid uid : String) (N : Int) (f : Int → List Nat)
    (last : Bool) (i : Int) : ChunkRequest :=
  ⟨u, some i, some N, last, f i, sid, uid⟩

/-- A full upload run from an empty table: submit the indices of `init`
(in that arrival order, none marked last), then index `lastIdx` marked
`isLastChunk`; the result is the terminal request's `StepResult`. -/
def chunkRun (blob : List Nat → BlobResult) (u sid uid : String) (N : Int)
    (f : Int → List Nat) (init : List Int) (lastIdx : Int) : StepResult :=
  upload_chunk blob (processAll blob [] (init.map (mkReq u sid uid N f false)))
    (mkReq u sid uid N f true lastIdx)

/-- The buffer the silent-gap policy predicts: indices `0..N-1` in
ascending order, an index contributing its payload when it was submitted
and nothing otherwise. -/
def expectedBuffer (N : Int) (idxs : List Int) (f : Int → List Nat) : List Nat :=
  (List.range N.toNat).foldl
    (fun acc (i : Nat) => acc ++ (if (i : Int) ∈ idxs then f i else [])) []

/-! ### Concrete fixtures used by witnesses and counterexamples -/

/-- A user document whose token expired at time 5 and that has no refresh
token. -/
def staleNoRefreshDoc : UserDoc := ⟨1, some "staletok", none, some 5⟩

/-- A token provider that always fails. -/
def refreshNever : String → Option TokenResult := fun _ => none

/-- A storage uploader that always succeeds, reporting the buffer's
length as the stored size. -/
def blobOk : List Nat → BlobResult := fun b => .ok "https://blob" b.length

/-- Payloads for the spec's concrete scenarios: index 0 carries byte 65
("A"), index 1 byte 66 ("B"), index 2 byte 67 ("C"). -/
def fABC : Int → List Nat :=
  fun i => if i = 0 then [65] else if i = 1 then [66] else if i = 2 then [67] else []

/-! ### Theorems: credential refresh gate -/

/-- C1 counterexample: at time 10 the document `staleNoRefreshDoc` is
expired (5 ≤ 10) and has no refresh token, yet
`get_valid_credentials_from_doc` does not signal `Unavailable` (does not
return `None`): it falls through and returns a Credential built from the
stale stored token. -/
theorem C1_counterexample :
    staleNoRefreshDoc.token_expiry = some 5 ∧
    staleNoRefreshDoc.refresh_token = none ∧
    (get_valid_credentials_from_doc 10 staleNoRefreshDoc refreshNever).result ≠ none := by
  refine ⟨rfl, rfl, ?_⟩
  simp [get_valid_credentials_from_doc, staleNoRefreshDoc, refreshNever]

/-- C1 (amended): for every credential record whose expiry is in the past
(`exp ≤ now`) and whose refresh token is absent,
`get_valid_credentials_from_doc` makes zero token-provider calls and
performs no database write, but instead of signalling `Unavailable` it
returns a Credential built from the stale stored access token (and absent
refresh token), leaving the record unchanged. -/
theorem C1_amended_stale_no_refresh (now : Nat) (doc : UserDoc)
    (refresh : String → Option TokenResult) (e : Nat)
    (hexp : doc.token_expiry = some e) (hle : e ≤ now)
    (hrt : doc.refresh_token = none) :
    (get_valid_credentials_from_doc now doc refresh).result
        = some ⟨doc.access_token, none⟩ ∧
    (get_valid_credentials_from_doc now doc refresh).refreshCalls = 0 ∧
    (get_valid_credentials_from_doc now doc refresh).dbWrites = [] ∧
    (get_valid_credentials_from_doc now doc refresh).finalDoc = doc := by
  simp [get_valid_credentials_from_doc, hexp, hrt, hle]

/-- C1 amended witness: the amended behaviour at the concrete expired,
refresh-less document. -/
theorem C1_amended_witness :
    (get_valid_credentials_from_doc 10 staleNoRefreshDoc refreshNever).result
        = some ⟨some "staletok", none⟩ ∧
    (get_valid_credentials_from_doc 10 staleNoRefreshDoc refreshNever).refreshCalls = 0 ∧
    (get_valid_credentials_from_doc 10 staleNoRefreshDoc refreshNever).dbWrites = [] ∧
    (get_valid_credentials_from_doc 10 staleNoRefreshDoc refreshNever).finalDoc
        = staleNoRefreshDoc := by
  have h := C1_amended_stale_no_refresh 10 staleNoRefreshDoc refreshNever 5 rfl
    (by decide) rfl
  exact h

/-- C5: for every credential record whose expiry is absent or strictly in
the future, `get_valid_credentials_from_doc` returns a Credential built
directly from the stored access and refresh tokens, makes zero
token-provider calls, and performs no database write. -/
theorem C5_fresh_token_no_refresh (now : Nat) (doc : UserDoc)
    (refresh : String → Option TokenResult)
    (hfresh : ∀ e, doc.token_expiry = some e → now < e) :
    (get_valid_credentials_from_doc now doc refresh).result
        = some ⟨doc.access_token, doc.refresh_token⟩ ∧
    (get_valid_credentials_from_doc now doc refresh).refreshCalls = 0 ∧
    (get_valid_credentials_from_doc now doc refresh).dbWrites = [] ∧
    (get_valid_credentials_from_doc now doc refresh).finalDoc = doc := by
  match hdoc : doc.token_expiry with
  | none => simp [get_valid_credentials_from_doc, hdoc]
  | some e =>
    have hlt := hfresh e hdoc
    have : ¬ (e ≤ now) := by omega
    simp [get_valid_credentials_from_doc, hdoc, this]

/-- C5 witness: a document expiring at 100, queried at 10. -/
theorem C5_witness :
    (get_valid_credentials_from_doc 10 ⟨2, some "tok", some "ref", some 100⟩ refreshNever).result
        = some ⟨some "tok", some "ref"⟩ ∧
    (get_valid_credentials_from_doc 10 ⟨2, some "tok", some "ref", some 100⟩ refreshNever).refreshCalls = 0 ∧
    (get_valid_credentials_from_doc 10 ⟨2, some "tok", some "ref", some 100⟩ refreshNever).dbWrites = [] ∧
    (get_valid_credentials_from_doc 10 ⟨2, some "tok", some "ref", some 100⟩ refreshNever).finalDoc
        = ⟨2, some "tok", some "ref", some 100⟩ := by
  have h := C5_fresh_token_no_refresh 10 ⟨2, some "tok", some "ref", some 100⟩ refreshNever
    (by intro e he; cases he; omega)
  exact h

/-- C6: for every stale record (`exp ≤ now`) with a present refresh token,
when the provider's refresh succeeds the gate issues exactly one database
write — keyed by the record's `_id`, setting the new access token and new
expiry — updates the in-memory record's access token, performs exactly one
provider call, and returns a Credential carrying the refreshed access
token. -/
theorem C6_refresh_success (now : Nat) (doc : UserDoc)
    (refresh : String → Option TokenResult) (e : Nat) (rt : String) (tr : TokenResult)
    (hexp : doc.token_expiry = some e) (hle : e ≤ now)
    (hrt : doc.refresh_token = some rt) (hrefresh : refresh rt = some tr) :
    (get_valid_credentials_from_doc now doc refresh).result
        = some ⟨some tr.access_token, some rt⟩ ∧
    (get_valid_credentials_from_doc now doc refresh).dbWrites
        = [⟨doc.id, tr.access_token, tr.token_expiry⟩] ∧
    (get_valid_credentials_from_doc now doc refresh).refreshCalls = 1 ∧
    (get_valid_credentials_from_doc now doc refresh).finalDoc
        = { doc with access_token := some tr.access_token } := by
  simp [get_valid_credentials_from_doc, hexp, hrt, hle, hrefresh]

/-- C6 witness: a stale record refreshed successfully to a new token
expiring at 200. -/
theorem C6_witness :
    (get_valid_credentials_from_doc 10 ⟨3, some "old", some "ref", some 5⟩
        (fun _ => some ⟨"new", 200⟩)).result = some ⟨some "new", some "ref"⟩ ∧
    (get_valid_credentials_from_doc 10 ⟨3, some "old", some "ref", some 5⟩
        (fun _ => some ⟨"new", 200⟩)).dbWrites = [⟨3, "new", 200⟩] ∧
    (get_valid_credentials_from_doc 10 ⟨3, some "old", some "ref", some 5⟩
        (fun _ => some ⟨"new", 200⟩)).refreshCalls = 1 ∧
    (get_valid_credentials_from_doc 10 ⟨3, some "old", some "ref", some 5⟩
        (fun _ => some ⟨"new", 200⟩)).finalDoc = ⟨3, some "new", some "ref", some 5⟩ := by
  have h := C6_refresh_success 10 ⟨3, some "old", some "ref", some 5⟩
    (fun _ => some ⟨"new", 200⟩) 5 "ref" ⟨"new", 200⟩ rfl (by decide) rfl rfl
  exact h

/-- C7: for every stale record with a present refresh token, when the
provider's refresh fails the gate returns `None` (Unavailable) after
exactly one provider call — no retry — and performs no database write. -/
theorem C7_refresh_failure_no_retry (now : Nat) (doc : UserDoc)
    (refresh : String → Option TokenResult) (e : Nat) (rt : String)
    (hexp : doc.token_expiry = some e) (hle : e ≤ now)
    (hrt : doc.refresh_token = some rt) (hrefresh : refresh rt = none) :
    (get_valid_credentials_from_doc now doc refresh).result = none ∧
    (get_valid_credentials_from_doc now doc refresh).refreshCalls = 1 ∧
    (get_valid_credentials_from_doc now doc refresh).dbWrites = [] := by
  simp [get_valid_credentials_from_doc, hexp, hrt, hle, hrefresh]

/-- C7 witness: a stale record whose refresh attempt fails. -/
theorem C7_witness :
    (get_valid_credentials_from_doc 10 ⟨4, some "old", some "ref", some 5⟩ refreshNever).result
        = none ∧
    (get_valid_credentials_from_doc 10 ⟨4, some "old", some "ref", some 5⟩ refreshNever).refreshCalls
        = 1 ∧
    (get_valid_credentials_from_doc 10 ⟨4, some "old", some "ref", some 5⟩ refreshNever).dbWrites
        = [] := by
  have h := C7_refresh_failure_no_retry 10 ⟨4, some "old", some "ref", some 5⟩ refreshNever
    5 "ref" rfl (by decide) rfl rfl
  exact h

/-! ### Helper lemmas: chunk table operations -/

theorem lookupUpload_storeChunk_self (st : ChunkStorage) (u : String) (i : Int) (p : List Nat) :
    lookupUpload (storeChunk st u i p) u
      = (lookupUpload st u).map (fun s => { s with chunks := (i, p) :: s.chunks }) := by
  induction st with
  | nil => rfl
  | cons e t ih =>
    by_cases h : e.fst = u
    · simp [storeChunk, lookupUpload, h]
    · simp only [storeChunk, List.map_cons, if_neg h]
      simp only [lookupUpload, if_neg h]
      exact ih

theorem lookupUpload_removeUpload_self (st : ChunkStorage) (u : String) :
    lookupUpload (removeUpload st u) u = none := by
  induction st with
  | nil => rfl
  | cons e t ih =>
    by_cases h : e.fst = u
    · simpa [removeUpload, h] using ih
    · simpa [removeUpload, lookupUpload, h] using ih

theorem getChunk_map_pairs (l : List Int) (f : Int → List Nat) (i : Int) :
    getChunk (l.map (fun j => (j, f j))) i = if i ∈ l then some (f i) else none := by
  induction l with
  | nil => simp [getChunk]
  | cons j t ih =>
    by_cases h : j = i
    · subst h
      simp [getChunk]
    · have h' : ¬ (i = j) := fun hh => h hh.symm
      simp [getChunk, h, h', ih]

theorem combineChunks_map_pairs (l : List Int) (f : Int → List Nat) (N : Int)
    (sid uid : String) :
    combineChunks ⟨l.map (fun j => (j, f j)), N, sid, uid⟩ = expectedBuffer N l f := by
  unfold combineChunks expectedBuffer
  apply List.foldl_ext
  intro a b _
  rw [getChunk_map_pairs]
  by_cases h : (b : Int) ∈ l <;> simp [h]

theorem expectedBuffer_congr (N : Int) (l1 l2 : List Int) (f : Int → List Nat)
    (h : ∀ i : Int, i ∈ l1 ↔ i ∈ l2) :
    expectedBuffer N l1 f = expectedBuffer N l2 f := by
  unfold expectedBuffer
  apply List.foldl_ext
  intro a b _
  simp only [h]

/-! ### Helper lemmas: single upload_chunk steps -/

theorem upload_chunk_nonlast_existing (blob : List Nat → BlobResult) (st : ChunkStorage)
    (req : ChunkRequest) (s : UploadSession)
    (hs : lookupUpload st req.uploadId = some s) (hnl : req.isLastChunk = false) :
    upload_chunk blob st req
      = ⟨storeChunk st req.uploadId (req.chunkIndex.getD 0) req.payload,
         .interim (req.chunkIndex.getD 0), none⟩ := by
  simp [upload_chunk, hs, hnl]

theorem upload_chunk_nonlast_fresh (blob : List Nat → BlobResult) (st : ChunkStorage)
    (req : ChunkRequest)
    (hs : lookupUpload st req.uploadId = none) (hnl : req.isLastChunk = false) :
    upload_chunk blob st req
      = ⟨storeChunk ((req.uploadId,
            ⟨[], req.totalChunks.getD 1, req.session_id, req.user_id⟩) :: st)
           req.uploadId (req.chunkIndex.getD 0) req.payload,
         .interim (req.chunkIndex.getD 0), none⟩ := by
  simp [upload_chunk, hs, hnl]

theorem upload_chunk_last_existing (blob : List Nat → BlobResult) (st : ChunkStorage)
    (req : ChunkRequest) (s : UploadSession)
    (hs : lookupUpload st req.uploadId = some s) (hl : req.isLastChunk = true) :
    upload_chunk blob st req
      = ⟨removeUpload (storeChunk st req.uploadId (req.chunkIndex.getD 0) req.payload)
           req.uploadId,
         respOf (blob (combineChunks
           { s with chunks := (req.chunkIndex.getD 0, req.payload) :: s.chunks })),
         some (combineChunks
           { s with chunks := (req.chunkIndex.getD 0, req.payload) :: s.chunks })⟩ := by
  simp [upload_chunk, hs, hl]

theorem upload_chunk_last_fresh (blob : List Nat → BlobResult) (st : ChunkStorage)
    (req : ChunkRequest)
    (hs : lookupUpload st req.uploadId = none) (hl : req.isLastChunk = true) :
    upload_chunk blob st req
      = ⟨removeUpload (storeChunk ((req.uploadId,
            ⟨[], req.totalChunks.getD 1, req.session_id, req.user_id⟩) :: st)
           req.uploadId (req.chunkIndex.getD 0) req.payload) req.uploadId,
         respOf (blob (combineChunks
           ⟨[(req.chunkIndex.getD 0, req.payload)],
            req.totalChunks.getD 1, req.session_id, req.user_id⟩)),
         some (combineChunks
           ⟨[(req.chunkIndex.getD 0, req.payload)],
            req.totalChunks.getD 1, req.session_id, req.user_id⟩)⟩ := by
  simp [upload_chunk, hs, hl]

/-! ### Helper lemmas: processing a run of non-terminal fragments -/

theorem processAll_nonlast (blob : List Nat → BlobResult) (u sid uid : String)
    (N : Int) (f : Int → List Nat) :
    ∀ (l : List Int) (st : ChunkStorage) (s : UploadSession),
      lookupUpload st u = some s →
      lookupUpload (processAll blob st (l.map (mkReq u sid uid N f false))) u
        = some { s with chunks := l.reverse.map (fun j => (j, f j)) ++ s.chunks } := by
  intro l
  induction l with
  | nil =>
    intro st s h
    simpa [processAll] using h
  | cons i t ih =>
    intro st s h
    have hstep := upload_chunk_nonlast_existing blob st (mkReq u sid uid N f false i) s h rfl
    have hlook : lookupUpload (storeChunk st u i (f i)) u
        = some { s with chunks := (i, f i) :: s.chunks } := by
      rw [lookupUpload_storeChunk_self, h]
      rfl
    have hrec := ih (storeChunk st u i (f i)) _ hlook
    simp only [List.map_cons, processAll, List.foldl_cons] at hrec ⊢
    rw [hstep]
    simp only [mkReq, Option.getD_some] at hrec ⊢
    rw [hrec]
    simp [List.reverse_cons, List.map_append, List.append_assoc]

/-- Master run theorem: a full upload run from an empty table — indices
`init` submitted in arrival order, then `lastIdx` marked last, every
fragment declaring total `N` and index `i` carrying payload `f i` — hands
the storage uploader exactly the gap-tolerant ascending-index buffer for
the submitted index set, and responds according to the uploader's
outcome on that buffer. -/
theorem chunkRun_spec (blob : List Nat → BlobResult) (u sid uid : String)
    (N : Int) (f : Int → List Nat) (init : List Int) (lastIdx : Int) :
    (chunkRun blob u sid uid N f init lastIdx).handedToStore
        = some (expectedBuffer N (lastIdx :: init) f) ∧
    (chunkRun blob u sid uid N f init lastIdx).response
        = respOf (blob (expectedBuffer N (lastIdx :: init) f)) := by
  cases init with
  | nil =>
    have hfresh : lookupUpload ([] : ChunkStorage) u = none := rfl
    have h := upload_chunk_last_fresh blob []
      (mkReq u sid uid N f true lastIdx) hfresh rfl
    have hcomb : combineChunks ⟨[(lastIdx, f lastIdx)], N, sid, uid⟩
        = expectedBuffer N [lastIdx] f := by
      simpa using combineChunks_map_pairs [lastIdx] f N sid uid
    simp only [mkReq, Option.getD_some] at h
    constructor <;> simp [chunkRun, processAll, mkReq, h, hcomb]
  | cons i0 t =>
    have hfresh : lookupUpload ([] : ChunkStorage) u = none := rfl
    have h1 : (upload_chunk blob [] (mkReq u sid uid N f false i0)).storage
        = storeChunk [(u, ⟨[], N, sid, uid⟩)] u i0 (f i0) := by
      rw [upload_chunk_nonlast_fresh blob [] _ hfresh rfl]
      simp [mkReq]
    have hlook1 : lookupUpload (storeChunk [(u, ⟨[], N, sid, uid⟩)] u i0 (f i0)) u
        = some ⟨[(i0, f i0)], N, sid, uid⟩ := by
      rw [lookupUpload_storeChunk_self]
      simp [lookupUpload]
    have h2 : lookupUpload (processAll blob (storeChunk [(u, ⟨[], N, sid, uid⟩)] u i0 (f i0))
          (t.map (mkReq u sid uid N f false))) u
        = some ⟨t.reverse.map (fun j => (j, f j)) ++ [(i0, f i0)], N, sid, uid⟩ := by
      simpa using processAll_nonlast blob u sid uid N f t _ _ hlook1
    have hPA : processAll blob [] ((i0 :: t).map (mkReq u sid uid N f false))
        = processAll blob (storeChunk [(u, ⟨[], N, sid, uid⟩)] u i0 (f i0))
            (t.map (mkReq u sid uid N f false)) := by
      simp only [List.map_cons, processAll, List.foldl_cons, h1]
    have hlookMid : lookupUpload (processAll blob []
          ((i0 :: t).map (mkReq u sid uid N f false)))
          (mkReq u sid uid N f true lastIdx).uploadId
        = some ⟨t.reverse.map (fun j => (j, f j)) ++ [(i0, f i0)], N, sid, uid⟩ := by
      rw [hPA]
      exact h2
    have hlast := upload_chunk_last_existing blob
      (processAll blob [] ((i0 :: t).map (mkReq u sid uid N f false)))
      (mkReq u sid uid N f true lastIdx)
      ⟨t.reverse.map (fun j => (j, f j)) ++ [(i0, f i0)], N, sid, uid⟩ hlookMid rfl
    have hchunks : ((lastIdx, f lastIdx) ::
          (t.reverse.map (fun j => (j, f j)) ++ [(i0, f i0)]))
        = (lastIdx :: (t.reverse ++ [i0])).map (fun j => (j, f j)) := by
      simp
    have hcomb : combineChunks ⟨(lastIdx, f lastIdx) ::
          (t.reverse.map (fun j => (j, f j)) ++ [(i0, f i0)]), N, sid, uid⟩
        = expectedBuffer N (lastIdx :: i0 :: t) f := by
      rw [hchunks, combineChunks_map_pairs]
      apply expectedBuffer_congr
      intro i
      simp only [List.mem_cons, List.mem_append, List.mem_reverse, List.mem_singleton]
      tauto
    have hrun : chunkRun blob u sid uid N f (i0 :: t) lastIdx
        = upload_chunk blob (processAll blob [] ((i0 :: t).map (mkReq u sid uid N f false)))
            (mkReq u sid uid N f true lastIdx) := rfl
    constructor
    · rw [hrun, hlast]
      simp only [mkReq, Option.getD_some]
      rw [hcomb]
    · rw [hrun, hlast]
      simp only [mkReq, Option.getD_some]
      rw [hcomb]

/-! ### Theorems: chunked upload reassembler -/

/-- C2: for every run of fragment submissions whose indices cover
`0..N-1` exactly once, in any arrival order, with the final submission
marked last, the buffer handed to the storage uploader is the
concatenation of the payloads in ascending index order. -/
theorem C2_order_independent_reassembly (blob : List Nat → BlobResult)
    (u sid uid : String) (N : Int) (f : Int → List Nat)
    (init : List Int) (lastIdx : Int)
    (hnd : (lastIdx :: init).Nodup)
    (hcov : ∀ i : Int, i ∈ lastIdx :: init ↔ 0 ≤ i ∧ i < N) :
    (chunkRun blob u sid uid N f init lastIdx).handedToStore
      = some ((List.range N.toNat).foldl (fun acc (i : Nat) => acc ++ f (i : Int)) []) := by
  rw [(chunkRun_spec blob u sid uid N f init lastIdx).1]
  congr 1
  unfold expectedBuffer
  apply List.foldl_ext
  intro a b hb
  have hbr : b < N.toNat := List.mem_range.mp hb
  have hmem : (b : Int) ∈ lastIdx :: init := (hcov b).mpr (by omega)
  simp [hmem]

/-- C2 witness: the spec's concrete scenario — totalExpected 3, submit
index 2 ("C"), then index 0 ("A"), then index 1 ("B") marked last; the
uploader receives "ABC" (bytes 65, 66, 67). -/
theorem C2_witness :
    (chunkRun blobOk "u1" "sess1" "user1" 3 fABC [2, 0] 1).handedToStore
      = some [65, 66, 67] := by
  have h := C2_order_independent_reassembly blobOk "u1" "sess1" "user1" 3 fABC [2, 0] 1
    (by decide) (by intro i; simp; omega)
  rw [h]
  rfl

/-- C3: for every run whose submitted indices cover `[0, N)` except for
one never-submitted index `k`, reassembly still proceeds — the response is
exactly what the uploader's outcome dictates, no reassembly error — and
the buffer handed to the uploader is the ascending-index concatenation
with index `k` contributing zero bytes. -/
theorem C3_gap_skipped (blob : List Nat → BlobResult)
    (u sid uid : String) (N : Int) (f : Int → List Nat)
    (init : List Int) (lastIdx k : Int)
    (hk : 0 ≤ k ∧ k < N)
    (hcov : ∀ i : Int, i ∈ lastIdx :: init ↔ 0 ≤ i ∧ i < N ∧ i ≠ k) :
    (chunkRun blob u sid uid N f init lastIdx).handedToStore
      = some ((List.range N.toNat).foldl
          (fun acc (i : Nat) => acc ++ (if (i : Int) = k then [] else f i)) []) ∧
    (chunkRun blob u sid uid N f init lastIdx).response
      = respOf (blob ((List.range N.toNat).foldl
          (fun acc (i : Nat) => acc ++ (if (i : Int) = k then [] else f i)) [])) := by
  have hbuf : expectedBuffer N (lastIdx :: init) f
      = (List.range N.toNat).foldl
          (fun acc (i : Nat) => acc ++ (if (i : Int) = k then [] else f i)) [] := by
    unfold expectedBuffer
    apply List.foldl_ext
    intro a b hb
    have hbr : b < N.toNat := List.mem_range.mp hb
    by_cases hbk : (b : Int) = k
    · have hnm : k ∉ lastIdx :: init := by
        intro hmem
        exact ((hcov k).mp hmem).2.2 rfl
      simp only [hbk]
      rw [if_neg hnm]
      simp
    · have hmem : (b : Int) ∈ lastIdx :: init := (hcov b).mpr (by omega)
      simp [hmem, hbk]
  refine ⟨?_, ?_⟩
  · rw [(chunkRun_spec blob u sid uid N f init lastIdx).1, hbuf]
  · rw [(chunkRun_spec blob u sid uid N f init lastIdx).2, hbuf]

/-- C3 witness: the spec's concrete scenario — totalExpected 3, submit
index 0 ("A"), then index 2 ("C") marked last, index 1 never sent; the
uploader receives "AC" (bytes 65, 67) and the run completes
successfully. -/
theorem C3_witness :
    (chunkRun blobOk "u3" "sess3" "user3" 3 fABC [0] 2).handedToStore
      = some [65, 67] ∧
    (chunkRun blobOk "u3" "sess3" "user3" 3 fABC [0] 2).response
      = .completed "https://blob" 2 := by
  have h := C3_gap_skipped blobOk "u3" "sess3" "user3" 3 fABC [0] 2 1
    (by decide) (by intro i; simp; omega)
  refine ⟨?_, ?_⟩
  · rw [h.1]
    rfl
  · rw [h.2]
    rfl

theorem lookupUpload_cons_self (u : String) (s : UploadSession) (st : ChunkStorage) :
    lookupUpload ((u, s) :: st) u = some s := by
  simp [lookupUpload]

/-- C4: processing a fragment marked last removes the in-memory entry for
that uploadId unconditionally — whatever the storage uploader does — and a
subsequent (non-last) fragment with the same uploadId allocates a
brand-new session whose `totalExpected` is freshly taken from that
fragment's metadata and whose chunk dict holds only that fragment. -/
theorem C4_entry_removed_then_fresh (blob blob2 : List Nat → BlobResult)
    (st : ChunkStorage) (req req2 : ChunkRequest)
    (hlast : req.isLastChunk = true)
    (hu : req2.uploadId = req.uploadId)
    (hnl : req2.isLastChunk = false) :
    lookupUpload (upload_chunk blob st req).storage req.uploadId = none ∧
    lookupUpload (upload_chunk blob2 (upload_chunk blob st req).storage req2).storage
        req2.uploadId
      = some ⟨[(req2.chunkIndex.getD 0, req2.payload)], req2.totalChunks.getD 1,
              req2.session_id, req2.user_id⟩ := by
  have hremoved : lookupUpload (upload_chunk blob st req).storage req.uploadId = none := by
    cases hlk : lookupUpload st req.uploadId with
    | some s =>
      rw [upload_chunk_last_existing blob st req s hlk hlast]
      exact lookupUpload_removeUpload_self _ _
    | none =>
      rw [upload_chunk_last_fresh blob st req hlk hlast]
      exact lookupUpload_removeUpload_self _ _
  refine ⟨hremoved, ?_⟩
  have hfresh : lookupUpload (upload_chunk blob st req).storage req2.uploadId = none := by
    rw [hu]
    exact hremoved
  rw [upload_chunk_nonlast_fresh blob2 _ req2 hfresh hnl]
  rw [lookupUpload_storeChunk_self, lookupUpload_cons_self]
  rfl

/-- C4 witness: a terminal fragment for upload "up" (uploader succeeds)
removes the entry; a following non-last fragment for "up" declaring
totalChunks 5 gets a brand-new session with total 5. -/
theorem C4_witness :
    lookupUpload (upload_chunk blobOk [("up", ⟨[(0, [1])], 1, "s", "r"⟩)]
        ⟨"up", some 0, some 1, true, [2], "s", "r"⟩).storage "up" = none ∧
    lookupUpload (upload_chunk blobOk (upload_chunk blobOk [("up", ⟨[(0, [1])], 1, "s", "r"⟩)]
        ⟨"up", some 0, some 1, true, [2], "s", "r"⟩).storage
        ⟨"up", some 0, some 5, false, [9], "s2", "r2"⟩).storage "up"
      = some ⟨[(0, [9])], 5, "s2", "r2"⟩ := by
  have h := C4_entry_removed_then_fresh blobOk blobOk [("up", ⟨[(0, [1])], 1, "s", "r"⟩)]
    ⟨"up", some 0, some 1, true, [2], "s", "r"⟩
    ⟨"up", some 0, some 5, false, [9], "s2", "r2"⟩ rfl rfl rfl
  exact h

/-- C8 counterexample: a fragment submission with a missing chunk index
(the claim says this is malformed metadata that must surface a
ValidationError and mutate no state) is in fact accepted — the code
defaults the index to 0, stores the payload, and returns a success
response — so the chunk table is mutated. -/
theorem C8_counterexample :
    (upload_chunk blobOk [] ⟨"u8", none, some 1, false, [65], "s8", "r8"⟩).storage ≠ [] ∧
    (upload_chunk blobOk [] ⟨"u8", none, some 1, false, [65], "s8", "r8"⟩).response
      = .interim 0 := by
  constructor
  · simp [upload_chunk, lookupUpload, storeChunk]
  · rfl

/-- C8 (amended): a fragment with missing metadata is not rejected:
a missing chunkIndex defaults to 0, a missing (or arbitrary, including
non-positive) totalChunks defaults to 1, the fragment is accepted and
stored — the chunk table IS mutated and a success response is returned;
no ValidationError exists on this path. -/
theorem C8_amended_defaults_accepted (blob : List Nat → BlobResult)
    (st : ChunkStorage) (u sid uid : String) (p : List Nat) (tc : Option Int)
    (hfresh : lookupUpload st u = none) :
    (upload_chunk blob st ⟨u, none, tc, false, p, sid, uid⟩).response = .interim 0 ∧
    lookupUpload (upload_chunk blob st ⟨u, none, tc, false, p, sid, uid⟩).storage u
      = some ⟨[(0, p)], tc.getD 1, sid, uid⟩ := by
  constructor
  · rw [upload_chunk_nonlast_fresh blob st _ hfresh rfl]
    rfl
  · rw [upload_chunk_nonlast_fresh blob st _ hfresh rfl]
    rw [lookupUpload_storeChunk_self, lookupUpload_cons_self]
    rfl

/-- C8 amended witness: a fragment with no chunkIndex and a non-positive
totalChunks (-2) is accepted into a fresh session at index 0 with the
declared total -2. -/
theorem C8_amended_witness :
    (upload_chunk blobOk [] ⟨"u8b", none, some (-2), false, [7], "s", "r"⟩).response
      = .interim 0 ∧
    lookupUpload (upload_chunk blobOk [] ⟨"u8b", none, some (-2), false, [7], "s", "r"⟩).storage
        "u8b"
      = some ⟨[(0, [7])], -2, "s", "r"⟩ := by
  have h := C8_amended_defaults_accepted blobOk [] "u8b" "s" "r" [7] (some (-2)) rfl
  exact h

/-- C9: once a session exists, the `totalChunks` metadata of a later
fragment for the same uploadId is ignored entirely — the step's outcome is
identical for any two values — a non-last fragment leaves the session's
total unchanged, and the terminal fragment reassembles by iterating over
the session's stored total (the one declared at creation). -/
theorem C9_total_fixed_at_creation (blob : List Nat → BlobResult)
    (st : ChunkStorage) (req : ChunkRequest) (s : UploadSession)
    (hs : lookupUpload st req.uploadId = some s) :
    (∀ tc1 tc2 : Option Int,
      upload_chunk blob st { req with totalChunks := tc1 }
        = upload_chunk blob st { req with totalChunks := tc2 }) ∧
    (req.isLastChunk = false →
      lookupUpload (upload_chunk blob st req).storage req.uploadId
        = some { s with chunks := (req.chunkIndex.getD 0, req.payload) :: s.chunks }) ∧
    (req.isLastChunk = true →
      (upload_chunk blob st req).handedToStore
        = some (combineChunks
            { s with chunks := (req.chunkIndex.getD 0, req.payload) :: s.chunks })) := by
  refine ⟨?_, ?_, ?_⟩
  · intro tc1 tc2
    simp [upload_chunk, hs]
  · intro hnl
    rw [upload_chunk_nonlast_existing blob st req s hs hnl]
    rw [lookupUpload_storeChunk_self, hs]
    rfl
  · intro hl
    rw [upload_chunk_last_existing blob st req s hs hl]

/-- C9 witness: a session for "u9" created with total 2; a later fragment
declaring totalChunks 99 produces the same outcome as one declaring 5, and
the stored total stays 2. -/
theorem C9_witness :
    (upload_chunk blobOk [("u9", ⟨[], 2, "s", "r"⟩)]
        ⟨"u9", some 0, some 99, false, [7], "s", "r"⟩
      = upload_chunk blobOk [("u9", ⟨[], 2, "s", "r"⟩)]
        ⟨"u9", some 0, some 5, false, [7], "s", "r"⟩) ∧
    lookupUpload (upload_chunk blobOk [("u9", ⟨[], 2, "s", "r"⟩)]
        ⟨"u9", some 0, some 99, false, [7], "s", "r"⟩).storage "u9"
      = some ⟨[(0, [7])], 2, "s", "r"⟩ := by
  have h := C9_total_fixed_at_creation blobOk [("u9", ⟨[], 2, "s", "r"⟩)]
    ⟨"u9", some 0, some 99, false, [7], "s", "r"⟩ ⟨[], 2, "s", "r"⟩ rfl
  exact ⟨h.1 (some 99) (some 5), h.2.1 rfl⟩

/-- A chunk stored at an index outside `[0, total)` is invisible to
reassembly: the combine loop only reads indices `0..total-1`. -/
theorem combineChunks_cons_out_of_range (s : UploadSession) (i : Int) (p : List Nat)
    (h : i < 0 ∨ s.total ≤ i) :
    combineChunks { s with chunks := (i, p) :: s.chunks } = combineChunks s := by
  unfold combineChunks
  apply List.foldl_ext
  intro a b hb
  have hbr : b < s.total.toNat := List.mem_range.mp hb
  have hbi : ¬ (i = (b : Int)) := by omega
  simp [getChunk, hbi]

/-- C10: a fragment whose index lies outside `[0, totalExpected)` is
accepted and stored in the session's fragment dict without error, but
contributes zero bytes to the reassembled buffer: a non-last such
fragment returns success and is recorded, and a terminal request's buffer
is exactly what it would be without that index. -/
theorem C10_out_of_range_index_ignored (blob : List Nat → BlobResult)
    (st : ChunkStorage) (req : ChunkRequest) (s : UploadSession) (i : Int)
    (hs : lookupUpload st req.uploadId = some s)
    (hidx : req.chunkIndex = some i)
    (hout : i < 0 ∨ s.total ≤ i) :
    (req.isLastChunk = false →
      (upload_chunk blob st req).response = .interim i ∧
      lookupUpload (upload_chunk blob st req).storage req.uploadId
        = some { s with chunks := (i, req.payload) :: s.chunks }) ∧
    (req.isLastChunk = true →
      (upload_chunk blob st req).handedToStore = some (combineChunks s)) := by
  constructor
  · intro hnl
    constructor
    · rw [upload_chunk_nonlast_existing blob st req s hs hnl, hidx]
      rfl
    · rw [upload_chunk_nonlast_existing blob st req s hs hnl]
      rw [lookupUpload_storeChunk_self, hs, hidx]
      rfl
  · intro hl
    rw [upload_chunk_last_existing blob st req s hs hl, hidx]
    have := combineChunks_cons_out_of_range s i req.payload hout
    simp only [Option.getD_some]
    rw [this]

/-- C10 witness: a session for "u10" with total 1 holding index 0 ("A");
a terminal fragment at index 5 is stored but the uploader still receives
just "A" (byte 65). -/
theorem C10_witness :
    (upload_chunk blobOk [("u10", ⟨[(0, [65])], 1, "sA", "rA"⟩)]
        ⟨"u10", some 5, some 1, true, [99], "sA", "rA"⟩).handedToStore
      = some [65] := by
  have h := C10_out_of_range_index_ignored blobOk [("u10", ⟨[(0, [65])], 1, "sA", "rA"⟩)]
    ⟨"u10", some 5, some 1, true, [99], "sA", "rA"⟩ ⟨[(0, [65])], 1, "sA", "rA"⟩ 5
    rfl rfl (Or.inr (by decide))
  rw [h.2 rfl]
  rfl

end PresentAI
